import Mathlib

/-!
Verification of the magentoProductAssistant catalog pipeline.

Shallow embedding of the field-mapping and size-classification engine:
  * `src/src/processors/size_attribute_processor.py` (`process_size`),
  * `src/src/processors/catalog_processor.py` (row transformation, image
    handling, SKU resolution, deduplication),
  * `src/src/context/product_context.py` (`get_context`),
  * `src/catalog_processor.py` (legacy processor: `extract_filename`,
    `create_universal_context`, single-image handling, deduplication).

Python strings are modelled as Lean `String` (ASCII fidelity; every value
exercised by the claims is ASCII).  Python regular expressions are modelled
by a small executable regex engine (`RE`, `reMatch`); each pattern literal
of the source is transcribed into an `RE` term next to its Python text.
The auxiliary size-configuration JSON file (`config/supplier_size_mapping.json`)
is not part of the sources, so it is treated as a parameter (`SizeConfig`);
a concrete instance `specConfig` is modelled from the spec where a concrete
configuration is needed.
-/

set_option autoImplicit false

/-- Whitespace characters stripped by Python `str.strip()` (ASCII range). -/
def isPySpace (c : Char) : Bool :=
  c = ' ' || c = '\t' || c = '\n' || c = '\r' || c = '\x0b' || c = '\x0c'

/-- Python `str.strip()` on the character list. -/
def pyStripL (l : List Char) : List Char :=
  ((l.dropWhile isPySpace).reverse.dropWhile isPySpace).reverse

/-- Python `str.strip()`. -/
def pyStrip (s : String) : String := ⟨pyStripL s.data⟩

/-- Python `str.upper()` (ASCII). -/
def pyUpper (s : String) : String := ⟨s.data.map Char.toUpper⟩

/-- Python `str.lower()` (ASCII). -/
def pyLower (s : String) : String := ⟨s.data.map Char.toLower⟩

/-- Does `hay` start with `needle`? (helper for substring containment). -/
def startsWithL : List Char → List Char → Bool
  | [], _ => true
  | _ :: _, [] => false
  | c :: cs, d :: ds => c = d && startsWithL cs ds

/-- Python `needle in hay` substring test, on character lists. -/
def containsSubL (needle : List Char) : List Char → Bool
  | [] => startsWithL needle []
  | c :: t => startsWithL needle (c :: t) || containsSubL needle t

/-- Python `needle in hay` substring test. -/
def containsSub (hay needle : String) : Bool := containsSubL needle.data hay.data

/-- Python `int()` on a string of decimal digits. -/
def digitsToNat (s : String) : Nat :=
  s.data.foldl (fun n c => n * 10 + (c.toNat - 48)) 0

/-- Python `sep.join(parts)`. -/
def joinSep (sep : String) : List String → String
  | [] => ""
  | x :: xs =>
    match xs with
    | [] => x
    | _ :: _ => x ++ sep ++ joinSep sep xs

/-- Keep-first deduplication of a list by a string key, carrying the set of
keys already seen.  This is the semantics of pandas
`drop_duplicates(subset=[k], keep='first')`. -/
def dedupKeepFirst {α : Type} (key : α → String) : List α → List String → List α
  | [], _ => []
  | x :: xs, seen =>
    if key x ∈ seen then dedupKeepFirst key xs seen
    else x :: dedupKeepFirst key xs (key x :: seen)

/-- Number of list elements whose key already occurred earlier (or in `seen`):
the rows a keep-first deduplication drops. -/
def dupCount {α : Type} (key : α → String) : List α → List String → Nat
  | [], _ => 0
  | x :: xs, seen =>
    if key x ∈ seen then 1 + dupCount key xs seen
    else dupCount key xs (key x :: seen)

/-! ### A small executable regex engine

`RE` covers exactly the constructs used by the Python patterns of the source:
character classes, concatenation, alternation and Kleene star.  `reMatch r s`
decides whether `s` as a whole matches `r` (Python `re.fullmatch`); anchored
`^...$` patterns of the source are translated to full matches (the classified
values are stripped, so they carry no trailing newline and `$` coincides with
end-of-string), `re.search` adds `.*` padding on both sides, and `re.match`
pads on the right only. -/

inductive RE where
  | eps : RE
  | cls : (Char → Bool) → RE
  | seq : RE → RE → RE
  | alt : RE → RE → RE
  | star : RE → RE

/-- Structural size of a regex (used to compute a sufficient fuel bound). -/
def sizeRE : RE → Nat
  | .eps => 1
  | .cls _ => 1
  | .seq a b => sizeRE a + sizeRE b + 1
  | .alt a b => sizeRE a + sizeRE b + 1
  | .star a => sizeRE a + 1

/-- Fuel-bounded matcher, structurally recursive on the fuel so that it
reduces inside the kernel.  Every recursive call strictly decreases the
measure `s.length + sizeRE r` (a star re-enters itself only after consuming
at least one character), so fuel `s.length + sizeRE r` is exact and the
out-of-fuel branch is never reached from `reMatch`. -/
def reMatchF : Nat → RE → List Char → Bool
  | 0, _, _ => false
  | _ + 1, .eps, s => s.isEmpty
  | _ + 1, .cls p, s => match s with | [c] => p c | _ => false
  | fuel + 1, .alt a b, s => reMatchF fuel a s || reMatchF fuel b s
  | fuel + 1, .seq a b, s =>
    (List.range (s.length + 1)).any fun i =>
      reMatchF fuel a (s.take i) && reMatchF fuel b (s.drop i)
  | fuel + 1, .star a, s =>
    s.isEmpty || (List.range s.length).any fun j =>
      reMatchF fuel a (s.take (j + 1)) && reMatchF fuel (.star a) (s.drop (j + 1))

/-- Whole-string regex match (Python `re.fullmatch`). -/
def reMatch (r : RE) (s : List Char) : Bool := reMatchF (s.length + sizeRE r) r s

/-- Single-character regex. -/
def chC (c : Char) : RE := .cls (fun d => d = c)

/-- Regex matching a string literal. -/
def strRE (s : String) : RE := s.data.foldr (fun c r => .seq (chC c) r) .eps

/-- Alternation of a list of regexes (empty list never matches). -/
def altList (l : List RE) : RE := l.foldr .alt (.cls (fun _ => false))

/-- Python `\d` (ASCII digits; the classified values are ASCII). -/
def digitRE : RE := .cls Char.isDigit

/-- Python `\d+`. -/
def digitPlus : RE := .seq digitRE (.star digitRE)

/-- Python `\s`. -/
def wsRE : RE := .cls isPySpace

/-- Python `\s*`. -/
def wsStar : RE := .star wsRE

/-- Python `r?` (zero or one). -/
def opt (r : RE) : RE := .alt r .eps

/-- Python `.` (any character except newline). -/
def dotRE : RE := .cls (fun c => c ≠ '\n')

/-- Python `.*`. -/
def dotStar : RE := .star dotRE

/-- Any single character (used as padding for unanchored `re.search`). -/
def anyRE : RE := .cls (fun _ => true)

/-- Padding used to embed `re.search` into a full match. -/
def anyStar : RE := .star anyRE

/-- Concatenation of a list of regexes. -/
def seqList (l : List RE) : RE := l.foldr .seq .eps

/-- Python `re.search(r, v)` for an unanchored pattern `r`. -/
def searchB (r : RE) (v : String) : Bool :=
  reMatch (.seq anyStar (.seq r anyStar)) v.data

/-- Python `re.search`/`re.match` of a `^...$` pattern on a stripped value:
a whole-string match. -/
def fullB (r : RE) (v : String) : Bool := reMatch r v.data

/-! ### Size classifier (`src/src/processors/size_attribute_processor.py`)

The patterns below transcribe the `size_patterns` dictionary and the inline
regexes of `process_size`, keeping the Python pattern text in comments. -/

/-- Pattern `^(XS|S|M|L|XL|XXL|2XL|3XL)$`. -/
def abbRE1 : RE := altList (["XS", "S", "M", "L", "XL", "XXL", "2XL", "3XL"].map strRE)

/-- Pattern `^(S|M|L|XL)-[SML]$`. -/
def abbRE2 : RE :=
  .seq (altList (["S", "M", "L", "XL"].map strRE))
    (.seq (chC '-') (.cls (fun c => c = 'S' || c = 'M' || c = 'L')))

/-- Pattern `^(S|M|L|XL)/[SML]$`. -/
def abbRE3 : RE :=
  .seq (altList (["S", "M", "L", "XL"].map strRE))
    (.seq (chC '/') (.cls (fun c => c = 'S' || c = 'M' || c = 'L')))

/-- Pattern `^(UNICA|TU|U|UNIVERSAL|ONE SIZE)$`. -/
def abbRE4 : RE := altList (["UNICA", "TU", "U", "UNIVERSAL", "ONE SIZE"].map strRE)

/-- Fragment `YEARS?`. -/
def yearsRE : RE := .seq (strRE "YEAR") (opt (chC 'S'))

/-- Pattern `(\d+)\s*CM\s*/\s*(\d+)-(\d+)\s*YEARS?`. -/
def bamRE1 : RE :=
  seqList [digitPlus, wsStar, strRE "CM", wsStar, chC '/', wsStar,
    digitPlus, chC '-', digitPlus, wsStar, yearsRE]

/-- Pattern `(\d+)\s*CM\s*/\s*(\d+)\s*YEARS?`. -/
def bamRE2 : RE :=
  seqList [digitPlus, wsStar, strRE "CM", wsStar, chC '/', wsStar,
    digitPlus, wsStar, yearsRE]

/-- Pattern `(\d+)-(\d+)\s*YEARS?`. -/
def bamRE3 : RE := seqList [digitPlus, chC '-', digitPlus, wsStar, yearsRE]

/-- Pattern `(\d+)/(\d+)\s*YEARS?`. -/
def bamRE4 : RE := seqList [digitPlus, chC '/', digitPlus, wsStar, yearsRE]

/-- Pattern `(\d+)\s*Y(EARS)?`. -/
def bamRE5 : RE := seqList [digitPlus, wsStar, chC 'Y', opt (strRE "EARS")]

/-- Pattern `^(\d{2,3})\s*CM$`. -/
def bamRE6 : RE := seqList [digitRE, digitRE, opt digitRE, wsStar, strRE "CM"]

/-- Pattern `^(\d{1,2})$`. -/
def bamRE7 : RE := .seq digitRE (opt digitRE)

/-- Pattern two digits, a dash-or-slash class, two digits (`36-37`, `36/37`),
anchored at both ends. -/
def calzRE1 : RE :=
  seqList [digitRE, digitRE, .cls (fun c => c = '-' || c = '/'), digitRE, digitRE]

/-- Pattern `^(\d{2})$`. -/
def calzRE2 : RE := .seq digitRE digitRE

/-- Pattern `^(54|56|58|60)$`. -/
def capRE1 : RE := altList (["54", "56", "58", "60"].map strRE)

/-- Pattern `^(54|56|58|60)\s*CM$`. -/
def capRE2 : RE := seqList [capRE1, wsStar, strRE "CM"]

/-- The `size_patterns` dictionary of `SizeAttributeProcessor.__init__`, in
insertion order; each entry pairs a size-set name with the matchers of its
pattern family (each matcher is the corresponding `re.search`). -/
def sizePatterns : List (String × List (String → Bool)) :=
  [("abbigliamento", [fullB abbRE1, fullB abbRE2, fullB abbRE3, fullB abbRE4]),
   ("bambino", [searchB bamRE1, searchB bamRE2, searchB bamRE3, searchB bamRE4,
     searchB bamRE5, fullB bamRE6, fullB bamRE7]),
   ("calzature", [fullB calzRE1, fullB calzRE2]),
   ("cappelli", [fullB capRE1, fullB capRE2])]

/-- The auxiliary size configuration (`config/supplier_size_mapping.json`,
loaded in `SizeAttributeProcessor.__init__`).  The JSON file is not among the
sources, so it is kept as a parameter: `size_sets` maps a (lower-case)
supplier to its named size-sets with their exact valid size literals,
`size_type_mapping` maps a size-set name to a size-type, and
`category_indicators` maps a category to free-text indicator words. -/
structure SizeConfig where
  size_sets : List (String × List (String × List String))
  size_type_mapping : List (String × String)
  category_indicators : List (String × List String)

/-- Result triple of `process_size`. -/
structure SizeResult where
  size : String
  size_set : String
  size_type : String
deriving DecidableEq, Repr

/-- Lines 56-77 of `process_size`: the ESPA-specific pre-pass.  `none` models
falling through to the rest of the pipeline.  The first regex
`^[XS|S|M|L|XL|2XL|3XL]$` is a single-character class (as written in the
source), matching one of the characters X, S, `|`, M, L, 2, 3. -/
def espaPrePass (v : String) : Option SizeResult :=
  if fullB (.cls (fun c => c = 'X' || c = 'S' || c = '|' || c = 'M' || c = 'L' ||
      c = '2' || c = '3')) v then
    some ⟨v, "abbigliamento", "clothing"⟩
  else if fullB (.seq digitRE digitRE) v then
    if 32 ≤ digitsToNat v ∧ digitsToNat v ≤ 54 then some ⟨v, "abbigliamento", "clothing"⟩
    else if 2 ≤ digitsToNat v ∧ digitsToNat v ≤ 16 then some ⟨v, "bambino", "kids"⟩
    else none
  else none

/-- Lines 79-87 of `process_size`: a 1-2 digit value in the common kids range
2..16 is classified `bambino`/`kids` before anything else. -/
def kidsPreCheck (v : String) : Option SizeResult :=
  if fullB bamRE7 v then
    if 2 ≤ digitsToNat v ∧ digitsToNat v ≤ 16 then some ⟨v, "bambino", "kids"⟩ else none
  else none

/-- Lines 89-97 of `process_size`: exact lookup of the normalized value among
the supplier's configured size literals; returns the size-set name and its
mapped type (`size_type_mapping.get(set_name, 'clothing')`). -/
def supplierExact (cfg : SizeConfig) (supplier v : String) : Option (String × String) :=
  let sets := (cfg.size_sets.lookup (pyLower supplier)).getD []
  (sets.find? (fun p => p.2.any (fun s => pyUpper s == v))).map
    (fun p => (p.1, (cfg.size_type_mapping.lookup p.1).getD "clothing"))

/-- Lines 99-107 of `process_size`: first pattern family with a matching
pattern wins. -/
def patternFamilyLookup (v : String) : Option String :=
  (sizePatterns.find? (fun fam => fam.2.any (fun pat => pat v))).map (·.1)

/-- Lines 109-116 of `process_size`: substring match against the configured
category indicator lists. -/
def categoryIndicatorLookup (cfg : SizeConfig) (v : String) : Option String :=
  (cfg.category_indicators.find?
      (fun p => p.2.any (fun ind => containsSub v (pyUpper ind)))).map (·.1)

/-- Inline regex `\d+\s*CM.*YEARS?` of line 119 (searched). -/
def cmYearsRE : RE := seqList [digitPlus, wsStar, strRE "CM", dotStar, yearsRE]

/-- Inline regex of line 122: two digits, an optional dash-or-slash class,
an optional second two-digit group, anchored at both ends. -/
def twoDigitPairRE : RE :=
  seqList [digitRE, digitRE, opt (.cls (fun c => c = '-' || c = '/')),
    opt (.seq digitRE digitRE)]

/-- Python `re.findall(r'\d{2}', s)` as numbers: non-overlapping two-digit
chunks scanned left to right. -/
def findAllTwoDigitF : Nat → List Char → List Nat
  | 0, _ => []
  | _ + 1, [] => []
  | _ + 1, [_] => []
  | fuel + 1, c1 :: c2 :: rest =>
    if c1.isDigit && c2.isDigit then
      ((c1.toNat - 48) * 10 + (c2.toNat - 48)) :: findAllTwoDigitF fuel rest
    else findAllTwoDigitF fuel (c2 :: rest)

/-- Python `re.findall(r'\d{2}', s)` as numbers (wrapper supplying the fuel:
every step of `findAllTwoDigitF` consumes at least one character). -/
def findAllTwoDigit (l : List Char) : List Nat := findAllTwoDigitF l.length l

/-- Lines 56-143 of `process_size`, applied to the already-normalized
(stripped and upper-cased) value `v`: the ESPA pre-pass, the kids-digit
pre-check, the supplier-exact lookup, the pattern families, the category
indicators, the heuristics of lines 118-135 and the `abbigliamento` fallback,
in source order. -/
def processSizeNorm (cfg : SizeConfig) (supplier v : String) : SizeResult :=
  match (if pyLower supplier = "espa" then espaPrePass v else none) with
  | some r => r
  | none =>
    match kidsPreCheck v with
    | some r => r
    | none =>
      match supplierExact cfg supplier v with
      | some st => ⟨v, st.1, st.2⟩
      | none =>
        match patternFamilyLookup v with
        | some fam => ⟨v, fam, (cfg.size_type_mapping.lookup fam).getD "clothing"⟩
        | none =>
          match categoryIndicatorLookup cfg v with
          | some cat => ⟨v, cat, (cfg.size_type_mapping.lookup cat).getD "clothing"⟩
          | none =>
            if searchB cmYearsRE v then ⟨v, "bambino", "kids"⟩
            else if fullB twoDigitPairRE v &&
                (findAllTwoDigit v.data).all (fun n => 35 ≤ n && n ≤ 46) then
              ⟨v, "calzature", "shoes"⟩
            else if ["UNICA", "TU", "U", "UNIVERSAL", "ONE SIZE"].any
                (fun x => containsSub v x) then
              ⟨v, "abbigliamento", "clothing"⟩
            else if ["S", "M", "L", "XL", "2XL", "3XL"].any
                (fun x => containsSub v x) then
              ⟨v, "abbigliamento", "clothing"⟩
            else if (["54", "56", "58", "60"].any (fun x => containsSub v x)) &&
                v.length ≤ 4 then
              ⟨v, "cappelli", "accessories"⟩
            else ⟨v, "abbigliamento", "clothing"⟩

/-- `SizeAttributeProcessor.process_size`.  The input is the raw `size` value
of the product record: `none` models a missing or NaN value (and, like the
empty string, yields the empty triple of lines 46-51); any other value is
stripped and upper-cased (line 54) and classified by `processSizeNorm`. -/
def processSize (cfg : SizeConfig) (supplier : String) (sizeValue : Option String) :
    SizeResult :=
  match sizeValue with
  | none => ⟨"", "", ""⟩
  | some raw =>
    if raw = "" then ⟨"", "", ""⟩
    else processSizeNorm cfg supplier (pyUpper (pyStrip raw))

/-- Size configuration instance.  Modelled from the spec: the JSON
configuration file is absent from the sources; the spec fixes the size-set to
size-type mapping (`abbigliamento`/clothing, `bambino`/kids,
`calzature`/shoes, `cappelli`/accessories) and gives supplier "guirca" the
exact size literal "TU" in `abbigliamento`; no concrete category indicator
words are given, so that list is empty here. -/
def specConfig : SizeConfig where
  size_sets := [("guirca", [("abbigliamento", ["TU"])])]
  size_type_mapping :=
    [("abbigliamento", "clothing"), ("bambino", "kids"),
     ("calzature", "shoes"), ("cappelli", "accessories")]
  category_indicators := []

/-! ### Image filename reduction (`src/catalog_processor.py`, `extract_filename`)
and image URL stripping (`src/src/processors/catalog_processor.py`,
`_strip_image_url`). -/

/-- POSIX `os.path.basename`: the part after the last `/`. -/
def basenameL (l : List Char) : List Char :=
  (l.reverse.takeWhile (fun c => c ≠ '/')).reverse

/-- Python `filename.split('.')[0]`. -/
def splitDotHead (l : List Char) : List Char := l.takeWhile (fun c => c ≠ '.')

/-- Helper for `endsWithJpgL`: applied to the reversed character list, checks
that its first four characters, lower-cased, are `g`, `p`, `j`, `.`. -/
def checkJpgRev : List Char → Bool
  | a :: b :: c :: d :: _ =>
    Char.toLower a = 'g' && Char.toLower b = 'p' && Char.toLower c = 'j' &&
      Char.toLower d = '.'
  | _ => false

/-- Python `filename.lower().endswith('.jpg')`: the last four characters,
lower-cased, are `.jpg`. -/
def endsWithJpgL (l : List Char) : Bool := checkJpgRev l.reverse

/-- `CatalogProcessor.extract_filename` of the legacy `src/catalog_processor.py`
(string argument; `pd.isna` is `False` on a string). -/
def extract_filename (url : String) : String :=
  if url = "" then ""
  else if pyLower (pyStrip url) = "nan" ∨ pyStrip url = "" then ""
  else if endsWithJpgL (basenameL (pyStrip url).data) then ⟨basenameL (pyStrip url).data⟩
  else ⟨splitDotHead (basenameL (pyStrip url).data) ++ ('.' :: 'j' :: 'p' :: 'g' :: [])⟩

/-- `CatalogProcessor._strip_image_url` of
`src/src/processors/catalog_processor.py`: replace backslashes by slashes and
keep the part after the last slash (string argument; the empty string models
the falsy/NaN case). -/
def stripImageUrl (s : String) : String :=
  if s = "" then ""
  else ⟨basenameL (s.data.map (fun c => if c = '\\' then '/' else c))⟩

/-! ### Python cell values and rows

Cells reaching the row loop of `process_catalog` hold strings, numbers or NaN
(floats only arise from pandas internals and are not exercised by any claim,
so numbers are modelled by integers).  A row is an association list in column
order; Python `dict` assignment overwrites in place, so later duplicate keys
shadow earlier ones on lookup. -/

inductive PyVal where
  | vstr : String → PyVal
  | vint : Int → PyVal
  | vnan : PyVal
deriving DecidableEq, Repr

/-- Python `str(value)`. -/
def pyStr : PyVal → String
  | .vstr s => s
  | .vint n => toString n
  | .vnan => "nan"

/-- Python `pd.notna(value)`. -/
def pyNotNa : PyVal → Bool
  | .vnan => false
  | _ => true

/-- Python dict lookup where later duplicate keys overwrite earlier ones. -/
def dictGet (row : List (String × PyVal)) (k : String) : Option PyVal :=
  row.reverse.lookup k

/-- Python dict assignment on an association list: overwrite the value in
place if the key exists, else append. -/
def setKV (row : List (String × String)) (k v : String) : List (String × String) :=
  if row.any (fun p => p.1 == k) then
    row.map (fun p => if p.1 == k then (k, v) else p)
  else row ++ [(k, v)]

/-- Lookup in an output row (Python `magento_row[k]`, defaulting like
`dict.get(k, '')`). -/
def getKV (row : List (String × String)) (k : String) : String :=
  ((row.reverse.lookup k).getD "")

/-- Membership test `k in magento_row`. -/
def hasKV (row : List (String × String)) (k : String) : Bool :=
  row.any (fun p => p.1 == k)

/-! ### Context extraction

`ProductContext` of `src/src/context/product_context.py` (explicit-mapping
mode) and `create_universal_context` of the legacy `src/catalog_processor.py`
(heuristic mode). -/

/-- `ProductContext._normalize_data`: keys upper-cased. -/
def normalizeKeys (row : List (String × PyVal)) : List (String × PyVal) :=
  row.map (fun p => (pyUpper p.1, p.2))

/-- `ProductContext._clean_value` (int branch: an integral number is rendered
without decimal point; NaN and placeholder strings become `none`). -/
def cleanValue : PyVal → Option String
  | .vnan => none
  | .vint n => some (toString n)
  | .vstr s =>
    let t := pyStrip s
    if t ≠ "" ∧ pyLower t ≠ "nan" then some t else none

/-- The rows of the context-mapping CSV restricted to one supplier
(`mapping_df[mapping_df['supplier'] == self.supplier]`), as
`(supplier_field, context_type)` pairs. -/
def ctxMappingsFor (ctxTable : List (String × String × String)) (supplier : String) :
    List (String × String) :=
  ctxTable.filterMap (fun r => if r.1 = supplier then some r.2 else none)

/-- `ProductContext.get_context`: emit `context_type:value` for every mapped
field with a clean truthy value, joined by `" | "`; the empty string when no
pair qualifies.  `mappings` are the raw `(supplier_field, context_type)` rows
for this supplier (field names are upper-cased at load time). -/
def getContext (mappings : List (String × String)) (row : List (String × PyVal)) :
    String :=
  let data := normalizeKeys row
  joinSep " | " (mappings.filterMap (fun m =>
    match dictGet data (pyUpper m.1) with
    | some v => (cleanValue v).map (fun s => m.2 ++ ":" ++ s)
    | none => none))

/-- The `field_categories` table of the legacy `CatalogProcessor.__init__`;
each case-insensitive alternation regex is expanded into its literal
alternatives (`colou?r|colore?s` becomes color, colour, colors, colores). -/
def fieldCategories : List (String × List String) :=
  [("dimensions", ["dimension", "size", "talla", "misur", "altezza", "larghezza",
     "prof", "taglia"]),
   ("colors", ["color", "colour", "colors", "colores"]),
   ("materials", ["material", "compos", "fabric", "tessut"]),
   ("categories", ["categ", "tipo", "class", "group"]),
   ("descriptions", ["desc", "detail", "spec", "caratt"]),
   ("themes", ["theme", "tema", "occas", "event"]),
   ("features", ["feat", "carat", "funz", "options"]),
   ("brand", ["brand", "marca", "produt", "manufac"]),
   ("target", ["target", "età", "age", "gender", "sex"]),
   ("packaging", ["pack", "conf", "imballo", "content"]),
   ("season", ["season", "stag", "temp"]),
   ("technical", ["tech", "specs", "specific"])]

/-- `CatalogProcessor.categorize_field`: first category whose pattern matches
the lower-cased field name; `other` if none does. -/
def categorizeField (name : String) : String :=
  let lowerName := pyLower name
  (((fieldCategories.find? (fun p => p.2.any (fun pat => containsSub lowerName pat))).map
    (fun p => p.1)).getD "other")

/-- `CatalogProcessor.is_valuable_content`: NaN, blank, `nan`, short and
purely numeric values carry no information. -/
def isValuableContent (v : PyVal) : Bool :=
  match v with
  | .vnan => false
  | w =>
    let s := pyStrip (pyStr w)
    if s = "" ∨ pyLower s = "nan" then false
    else if s.length < 2 ∨ s.data.all Char.isDigit then false
    else true

/-- Value of a heuristic context category: a scalar when one value was
collected, a list otherwise. -/
inductive CtxVal where
  | one : String → CtxVal
  | many : List String → CtxVal
deriving DecidableEq, Repr

/-- Value of `row[col]` for a pandas row whose columns are `dfColumns`. -/
def rowGet (row : List (String × PyVal)) (col : String) : PyVal :=
  (dictGet row col).getD (.vstr "")

/-- `CatalogProcessor.create_universal_context` of the legacy processor:
collect the valuable values of unmapped columns grouped by field category (in
first-occurrence order, like the `defaultdict`), collapse singleton
categories to scalars, and return `none` when nothing qualifies. -/
def createUniversalContext (row : List (String × PyVal)) (dfColumns : List String)
    (mappedColumns : List String) : Option (List (String × CtxVal)) :=
  let pairs := dfColumns.filterMap (fun col =>
    if col ∉ mappedColumns ∧ isValuableContent (rowGet row col) then
      some (categorizeField col, pyStrip (pyStr (rowGet row col)))
    else none)
  let finalCtx := (dedupKeepFirst id (pairs.map (fun p => p.1)) []).map (fun c =>
    (c, match (pairs.filter (fun p => p.1 == c)).map (fun p => p.2) with
        | [v] => CtxVal.one v
        | vs => CtxVal.many vs))
  if finalCtx = [] then none else some finalCtx

/-! ### Row transformation
(`CatalogProcessor.process_catalog` of `src/src/processors/catalog_processor.py`,
row loop of lines 255-364, and its helpers). -/

/-- The `image_fields` dictionary keys of `CatalogProcessor.__init__`
(in insertion order; the handling mode is determined by the name). -/
def imageFieldNames : List String := ["base_image", "small_image", "thumbnail_image"]

/-- The ESPA division-to-category table of lines 312-318. -/
def espaDivisionMapping : List (String × String) :=
  [("accessories", "accessories"), ("basic", "basic_wear"), ("beachwear", "beachwear"),
   ("sportswear", "sportswear"), ("underwear", "underwear")]

/-- Configuration of one supplier's run of the row loop: the context-mapping
CSV rows, the Magento field mapping for this supplier
(`magento_mappings[supplier_key]`, canonical field to ordered supplier
columns) and the size configuration. -/
structure TransformCfg where
  ctxTable : List (String × String × String)
  mapping : List (String × List String)
  sizeCfg : SizeConfig

/-- First supplier column of `fields` that is present in the row with a
non-NaN value (the `if field in row and pd.notna(row[field])` probes). -/
def firstPresent (fields : List String) (row : List (String × PyVal)) : Option PyVal :=
  match fields with
  | [] => none
  | f :: fs =>
    match dictGet row f with
    | some v => if pyNotNa v then some v else firstPresent fs row
    | none => firstPresent fs row

/-- Python `cs.split('-')[0]`. -/
def splitDashFirst (s : String) : String := (s.splitOn "-").headD ""

/-- Python `cs.split('-')[1]`. -/
def splitDashSecond (s : String) : String := ((s.splitOn "-").drop 1).headD ""

/-- Inner loop of the regular-field resolution (lines 290-305): probe the
mapped supplier columns in order; the first present non-NaN value is stripped
and stored, breaking the loop — except that for the ESPA `Color-Size` column
the extracted size/color parts are stored and the loop continues. -/
def regularFieldLoop (supplierKey mf : String) (row : List (String × PyVal))
    (acc : List (String × String)) : List String → List (String × String)
  | [] => acc
  | f :: fs =>
    match dictGet row f with
    | some v =>
      if pyNotNa v then
        if supplierKey = "espa" ∧ f = "Color-Size" then
          let cs := pyStrip (pyStr v)
          let acc2 :=
            if containsSub cs "-" then
              if mf = "size" then setKV acc "size" (pyStrip (splitDashFirst cs))
              else if mf = "color" then setKV acc "color" (pyStrip (splitDashSecond cs))
              else acc
            else acc
          regularFieldLoop supplierKey mf row acc2 fs
        else setKV acc mf (pyStrip (pyStr v))
      else regularFieldLoop supplierKey mf row acc fs
    | none => regularFieldLoop supplierKey mf row acc fs

/-- Lines 288-305: resolve every canonical field other than the image fields
and `sku` over the mapping, in mapping order. -/
def processRegularFields (supplierKey : String) (mapping : List (String × List String))
    (row : List (String × PyVal)) (acc : List (String × String)) :
    List (String × String) :=
  mapping.foldl (fun acc2 p =>
    if p.1 ∈ imageFieldNames ∨ p.1 = "additional_images" ∨ p.1 = "sku" then acc2
    else regularFieldLoop supplierKey p.1 row acc2 p.2) acc

/-- Update the output row with the three fields of a `SizeResult`
(`magento_row.update(size_info)`). -/
def updateSize (acc : List (String × String)) (r : SizeResult) :
    List (String × String) :=
  setKV (setKV (setKV acc "size" r.size) "size_set" r.size_set) "size_type" r.size_type

/-- Lines 307-347: for ESPA, derive `categories` from the `Division` column
and size/color from the `Color-Size` column; for every other supplier run the
size processor on the already-resolved `size` field. -/
def processEspaOrSize (cfg : TransformCfg) (supplier supplierKey : String)
    (row : List (String × PyVal)) (acc : List (String × String)) :
    List (String × String) :=
  if supplierKey = "espa" then
    let division := pyLower (pyStrip (pyStr ((dictGet row "Division").getD (.vstr ""))))
    let acc := setKV acc "categories" ((espaDivisionMapping.lookup division).getD "default")
    match (row.map (fun p => p.1)).find? (fun k => containsSub k "Color-Size") with
    | some f =>
      match dictGet row f with
      | some v =>
        if pyNotNa v then
          let cs := pyStrip (pyStr v)
          if containsSub cs "-" then
            let sizeValue := pyStrip (splitDashFirst cs)
            let acc := setKV acc "size" sizeValue
            let acc := setKV acc "color" (pyStrip (splitDashSecond cs))
            updateSize acc (processSize cfg.sizeCfg supplier (some sizeValue))
          else acc
        else acc
      | none => acc
    | none => acc
  else
    if hasKV acc "size" then
      updateSize acc (processSize cfg.sizeCfg supplier (some (getKV acc "size")))
    else acc

/-- `CatalogProcessor._process_images` (lines 176-196): single-valued image
fields take the first present supplier column, stripped to a bare filename;
`additional_images` joins every present column's stripped filename. -/
def processImages (mapping : List (String × List String)) (row : List (String × PyVal))
    (acc : List (String × String)) : List (String × String) :=
  let acc := imageFieldNames.foldl (fun acc2 fld =>
    match firstPresent ((mapping.lookup fld).getD []) row with
    | some v => setKV acc2 fld (stripImageUrl (pyStr v))
    | none => acc2) acc
  setKV acc "additional_images"
    (joinSep "," (((mapping.lookup "additional_images").getD []).filterMap (fun f =>
      match dictGet row f with
      | some v =>
        if pyNotNa v then
          let img := stripImageUrl (pyStr v)
          if img = "" then none else some img
        else none
      | none => none)))

/-- One iteration of the row loop (lines 258-364).  `none` models a skipped
row: a missing SKU (lines 283-285) or the `ValueError` that
`ProductContext.load_mapping` raises when the supplier has no context
mappings, which the per-row `except` swallows. -/
def transformRow (cfg : TransformCfg) (supplier : String)
    (row : List (String × PyVal)) : Option (List (String × String)) :=
  let supplierKey := pyLower supplier
  let ctxMaps := ctxMappingsFor cfg.ctxTable supplier
  if ctxMaps = [] then none
  else
    let mrow := [("supplier", supplier)]
    let mrow := setKV mrow "product_context" (getContext ctxMaps row)
    match firstPresent ((cfg.mapping.lookup "sku").getD []) row with
    | none => none
    | some v =>
      let sku := pyStrip (pyStr v)
      if sku = "" then none
      else
        let mrow := setKV mrow "sku" sku
        let mrow := processRegularFields supplierKey cfg.mapping row mrow
        let mrow := processEspaOrSize cfg supplier supplierKey row mrow
        let mrow :=
          if hasKV mrow "size" then mrow
          else setKV (setKV (setKV mrow "size" "") "size_set" "default")
            "size_type" "default"
        some (processImages cfg.mapping row mrow)

/-- The whole row loop over a file's rows (`result_data`). -/
def processFileRows (cfg : TransformCfg) (supplier : String)
    (rows : List (List (String × PyVal))) : List (List (String × String)) :=
  rows.filterMap (transformRow cfg supplier)

/-! ### Reading a sheet into a data frame
(lines 206-220 and 235-236: empty cells become `''`, and after
`pd.DataFrame(data).fillna('')` a column missing from some row is `''` there
too). -/

/-- Value of a header's cell in a data-frame row built from a raw sheet row:
a raw cell is `none` when empty/None. -/
def sheetCell (rawRow : List (String × Option PyVal)) (h : String) : PyVal :=
  match rawRow.lookup h with
  | some (some v) => v
  | some none => .vstr ""
  | none => .vstr ""

/-- Data-frame row of a raw sheet row over the file's headers. -/
def dfRow (headers : List String) (rawRow : List (String × Option PyVal)) :
    List (String × PyVal) :=
  headers.map (fun h => (h, sheetCell rawRow h))

/-! ### Deduplication and the legacy single-image column -/

/-- The `sku` column of an output row. -/
def rowSku (r : List (String × String)) : String := getKV r "sku"

/-- Lines 417-427 of `process_all_catalogs`
(`src/src/processors/catalog_processor.py`): the concatenated per-file row
lists are deduplicated by `drop_duplicates(subset=['sku'], keep='first')`. -/
def dropDuplicatesSku (rows : List (List (String × String))) :
    List (List (String × String)) :=
  dedupKeepFirst rowSku rows []

/-- Lines 241-244 of the legacy `src/catalog_processor.py`: for a single-valued
image field, `str(df[existing_cols[0]].iloc[0])` (the first row's value of the
first existing column) is reduced by `extract_filename` and assigned to the
whole output column — the same value for every row. -/
def rootSingleImageColumn (rows : List (List (String × PyVal)))
    (existingCols : List String) : List String :=
  match existingCols with
  | [] => []
  | c0 :: _ =>
    match rows with
    | [] => []
    | r0 :: _ => rows.map (fun _ => extract_filename (pyStr (rowGet r0 c0)))

/-! ### Fixtures for the claims -/

/-- Size-set to size-type table (per the spec, see `specConfig`). -/
def specTypeMapping : List (String × String) :=
  [("abbigliamento", "clothing"), ("bambino", "kids"),
   ("calzature", "shoes"), ("cappelli", "accessories")]

/-- A configuration in which supplier `acme` declares the exact size literal
`5` for the `calzature` size-set (a configuration shape the spec permits). -/
def cexConfig : SizeConfig where
  size_sets := [("acme", [("calzature", ["5"])])]
  size_type_mapping := specTypeMapping
  category_indicators := []

/-- Normalization as worded by the spec (step 1 of `classify`): trim,
uppercase, strip parentheses.  Defined only to compare the spec's wording
with the code's normalization (which does not strip parentheses). -/
def specNormalizeSize (s : String) : String :=
  ⟨(pyUpper (pyStrip s)).data.filter (fun c => !(c == '(') && !(c == ')'))⟩

/-- A size configuration is well-formed when its size-set names and category
names are non-empty (they name members of the size-set taxonomy). -/
def wellFormedSizeConfig (cfg : SizeConfig) : Prop :=
  (∀ e ∈ cfg.size_sets, ∀ p ∈ e.2, p.1 ≠ "") ∧
    ∀ p ∈ cfg.category_indicators, p.1 ≠ ""

instance (cfg : SizeConfig) : Decidable (wellFormedSizeConfig cfg) := by
  unfold wellFormedSizeConfig
  exact inferInstance

/-- Transform configuration of a small one-supplier run (used by witnesses). -/
def witnessCfg : TransformCfg where
  ctxTable := [("acme", "CODE", "code")]
  mapping := [("sku", ["CODE"]), ("size", ["TAGLIA"]), ("base_image", ["IMG"])]
  sizeCfg := specConfig

/-- Raw sheet row with a SKU (used by witnesses). -/
def witnessGoodRow : List (String × Option PyVal) :=
  [("CODE", some (.vstr "P1")), ("TAGLIA", some (.vstr "M")),
   ("IMG", some (.vstr "http://x/y/p1.png"))]

/-- Raw sheet row whose only mapped SKU column is an empty cell. -/
def witnessBadRow : List (String × Option PyVal) :=
  [("CODE", none), ("TAGLIA", some (.vstr "S"))]

/-- Headers of the witness sheet. -/
def witnessHeaders : List String := ["CODE", "TAGLIA", "IMG"]

/-! ## Helper lemmas -/

theorem lookup_mem {β : Type} {k : String} {b : β} :
    ∀ {l : List (String × β)}, l.lookup k = some b → (k, b) ∈ l := by
  intro l h
  induction l with
  | nil => simp [List.lookup] at h
  | cons p t ih =>
    obtain ⟨a, c⟩ := p
    rw [List.lookup] at h
    by_cases hk : k = a
    · subst hk
      simp at h
      subst h
      exact List.mem_cons_self _ _
    · have : (k == a) = false := beq_false_of_ne hk
      rw [this] at h
      exact List.mem_cons_of_mem _ (ih h)

theorem espaPrePass_fields {v : String} {r : SizeResult} (h : espaPrePass v = some r) :
    r.size = v ∧ (r.size_set = "abbigliamento" ∨ r.size_set = "bambino") := by
  unfold espaPrePass at h
  split_ifs at h
  · rw [Option.some.injEq] at h; subst h; exact ⟨rfl, Or.inl rfl⟩
  · rw [Option.some.injEq] at h; subst h; exact ⟨rfl, Or.inl rfl⟩
  · rw [Option.some.injEq] at h; subst h; exact ⟨rfl, Or.inr rfl⟩

theorem kidsPreCheck_fields {v : String} {r : SizeResult} (h : kidsPreCheck v = some r) :
    r.size = v ∧ r.size_set = "bambino" := by
  unfold kidsPreCheck at h
  split_ifs at h
  · rw [Option.some.injEq] at h; subst h; exact ⟨rfl, rfl⟩

theorem supplierExact_mem {cfg : SizeConfig} {supplier v : String} {q : String × String}
    (h : supplierExact cfg supplier v = some q) :
    ∃ e ∈ cfg.size_sets, ∃ p ∈ e.2, p.1 = q.1 := by
  simp only [supplierExact, Option.map_eq_some'] at h
  obtain ⟨w, hfind, hw⟩ := h
  have hmem := List.mem_of_find?_eq_some hfind
  cases hl : cfg.size_sets.lookup (pyLower supplier) with
  | none => rw [hl] at hmem; simp at hmem
  | some l =>
    rw [hl] at hmem
    simp only [Option.getD_some] at hmem
    exact ⟨(pyLower supplier, l), lookup_mem hl, w, hmem, by rw [← hw]⟩

theorem patternFamilyLookup_cases {v f : String} (h : patternFamilyLookup v = some f) :
    f = "abbigliamento" ∨ f = "bambino" ∨ f = "calzature" ∨ f = "cappelli" := by
  simp only [patternFamilyLookup, Option.map_eq_some'] at h
  obtain ⟨fam, hfind, hf⟩ := h
  have hmem := List.mem_of_find?_eq_some hfind
  subst hf
  simp only [sizePatterns, List.mem_cons, List.not_mem_nil, or_false] at hmem
  rcases hmem with h | h | h | h <;> rw [h] <;> simp

theorem categoryIndicatorLookup_mem {cfg : SizeConfig} {v c : String}
    (h : categoryIndicatorLookup cfg v = some c) :
    ∃ p ∈ cfg.category_indicators, p.1 = c := by
  simp only [categoryIndicatorLookup, Option.map_eq_some'] at h
  obtain ⟨w, hfind, hw⟩ := h
  exact ⟨w, List.mem_of_find?_eq_some hfind, hw⟩

theorem processSizeNorm_size (cfg : SizeConfig) (supplier v : String) :
    (processSizeNorm cfg supplier v).size = v := by
  unfold processSizeNorm
  cases h1 : (if pyLower supplier = "espa" then espaPrePass v else none) with
  | some r =>
    by_cases he : pyLower supplier = "espa"
    · rw [if_pos he] at h1; exact (espaPrePass_fields h1).1
    · rw [if_neg he] at h1; exact Option.noConfusion h1
  | none =>
    cases h2 : kidsPreCheck v with
    | some r => exact (kidsPreCheck_fields h2).1
    | none =>
      cases h3 : supplierExact cfg supplier v with
      | some st => rfl
      | none =>
        cases h4 : patternFamilyLookup v with
        | some fam => rfl
        | none =>
          cases h5 : categoryIndicatorLookup cfg v with
          | some cat => rfl
          | none => split_ifs <;> rfl

theorem processSizeNorm_set_ne (cfg : SizeConfig) (supplier v : String)
    (hwf : wellFormedSizeConfig cfg) :
    (processSizeNorm cfg supplier v).size_set ≠ "" := by
  unfold processSizeNorm
  cases h1 : (if pyLower supplier = "espa" then espaPrePass v else none) with
  | some r =>
    by_cases he : pyLower supplier = "espa"
    · rw [if_pos he] at h1
      rcases (espaPrePass_fields h1).2 with h | h <;> rw [h] <;> decide
    · rw [if_neg he] at h1; exact Option.noConfusion h1
  | none =>
    cases h2 : kidsPreCheck v with
    | some r => rw [(kidsPreCheck_fields h2).2]; decide
    | none =>
      cases h3 : supplierExact cfg supplier v with
      | some st =>
        obtain ⟨e, he, p, hp, hps⟩ := supplierExact_mem h3
        show st.1 ≠ ""
        rw [← hps]
        exact hwf.1 e he p hp
      | none =>
        cases h4 : patternFamilyLookup v with
        | some fam =>
          show fam ≠ ""
          rcases patternFamilyLookup_cases h4 with h | h | h | h <;> rw [h] <;> decide
        | none =>
          cases h5 : categoryIndicatorLookup cfg v with
          | some cat =>
            obtain ⟨p, hp, hps⟩ := categoryIndicatorLookup_mem h5
            show cat ≠ ""
            rw [← hps]
            exact hwf.2 p hp
          | none =>
            have hne1 : ("bambino" : String) ≠ "" := by decide
            have hne2 : ("calzature" : String) ≠ "" := by decide
            have hne3 : ("abbigliamento" : String) ≠ "" := by decide
            have hne4 : ("cappelli" : String) ≠ "" := by decide
            split_ifs <;> assumption

theorem processSize_some (cfg : SizeConfig) (supplier raw : String) (h : raw ≠ "") :
    processSize cfg supplier (some raw) =
      processSizeNorm cfg supplier (pyUpper (pyStrip raw)) := by
  unfold processSize
  exact if_neg h

theorem processSizeNorm_exact (cfg : SizeConfig) (supplier v : String)
    (hespa : pyLower supplier ≠ "espa") (hkids : kidsPreCheck v = none)
    (st : String × String) (hfind : supplierExact cfg supplier v = some st) :
    processSizeNorm cfg supplier v = ⟨v, st.1, st.2⟩ := by
  unfold processSizeNorm
  rw [if_neg hespa, hkids, hfind]

/-! ## Claims C1, C2, C5, C7: size classification -/

/-- C1, counterexample: supplier `acme` configures the exact size literal `5`
for size-set `calzature` (so the supplier-exact lookup would resolve it to
`calzature`/`shoes`), yet `process_size` classifies `5` as `bambino`/`kids`:
the 1-2-digit kids pre-check of lines 79-87 runs before the supplier-exact
lookup, so the claim's "regardless of any pattern-family or heuristic rule"
is false. -/
theorem C1_counterexample :
    supplierExact cexConfig "acme" "5" = some ("calzature", "shoes") ∧
    processSize cexConfig "acme" (some "5") = ⟨"5", "bambino", "kids"⟩ ∧
    ("bambino" : String) ≠ "calzature" := by
  refine ⟨by decide, by decide, by decide⟩

/-- C1, amended: for a non-empty raw value, a supplier other than `espa`
(whose pre-pass runs first), and a normalized value not captured by the
1-2-digit kids pre-check, if the normalized value equals one of the
supplier's configured exact size literals (case-insensitively), then
`process_size` returns that literal's configured size-set and its mapped
size-type, regardless of pattern families, category indicators and the
later heuristics. -/
theorem C1_supplier_exact_precedence (cfg : SizeConfig) (supplier raw : String)
    (hraw : raw ≠ "") (hespa : pyLower supplier ≠ "espa")
    (hkids : kidsPreCheck (pyUpper (pyStrip raw)) = none)
    (st : String × String)
    (hfind : supplierExact cfg supplier (pyUpper (pyStrip raw)) = some st) :
    processSize cfg supplier (some raw) = ⟨pyUpper (pyStrip raw), st.1, st.2⟩ := by
  rw [processSize_some cfg supplier raw hraw]
  exact processSizeNorm_exact cfg supplier _ hespa hkids st hfind

/-- C1, witness: supplier `guirca` with configured exact size `TU` resolves
to `abbigliamento`/`clothing` via the supplier-exact lookup. -/
theorem C1_witness :
    processSize specConfig "guirca" (some "TU") =
      ⟨"TU", "abbigliamento", "clothing"⟩ :=
  C1_supplier_exact_precedence specConfig "guirca" "TU" (by decide) (by decide)
    (by decide) ("abbigliamento", "clothing") (by decide)

/-- C2, counterexample: the two-digit-pair calzature pattern of the
pattern-family stage has no numeric constraint: `12-13` (both numbers outside
35-46) is resolved to `calzature`/`shoes` by the pattern-family lookup, so
the family is not "numerically constrained to 35-46". -/
theorem C2_counterexample :
    patternFamilyLookup "12-13" = some "calzature" ∧
    processSize specConfig "acme" (some "12-13") = ⟨"12-13", "calzature", "shoes"⟩ ∧
    ¬(35 ≤ 12 ∧ 12 ≤ 46) := by
  refine ⟨by decide, by decide, by decide⟩

/-- C2, amended: `classify("36-37")` does return size-set `calzature` and
size-type `shoes`, but the calzature pattern family itself carries no 35-46
bound (the bound lives only in the later heuristic of lines 122-125):
`12-13` is resolved to `calzature`/`shoes` by the same family pattern, and a
bare two-digit value such as `36` is captured by the earlier `bambino`
family pattern instead of calzature. -/
theorem C2_calzature_patterns :
    processSize specConfig "acme" (some "36-37") = ⟨"36-37", "calzature", "shoes"⟩ ∧
    patternFamilyLookup "36-37" = some "calzature" ∧
    processSize specConfig "acme" (some "12-13") = ⟨"12-13", "calzature", "shoes"⟩ ∧
    processSize specConfig "acme" (some "36") = ⟨"36", "bambino", "kids"⟩ := by
  refine ⟨by decide, by decide, by decide, by decide⟩

/-- C5, counterexample: a whitespace-only raw value is non-empty, so it
passes the emptiness check, but it normalizes to the empty string and falls
through to the `abbigliamento` fallback: the result has `size = ""` with
`size_set = "abbigliamento"`, refuting "size_set is empty if and only if
size is empty". -/
theorem C5_counterexample :
    (processSize specConfig "guirca" (some "   ")).size = "" ∧
    (processSize specConfig "guirca" (some "   ")).size_set ≠ "" := by
  refine ⟨by decide, by decide⟩

/-- C5, amended: for a well-formed size configuration, missing or empty
input yields the empty triple, and `size_set` can only be empty when `size`
is empty (equivalently, a non-empty `size` never comes with an empty
`size_set`); the converse fails for whitespace-only input (see the
counterexample), so the "if and only if" has to be weakened to this
direction. -/
theorem C5_empty_size_set (cfg : SizeConfig) (supplier : String)
    (inp : Option String) (hwf : wellFormedSizeConfig cfg) :
    ((inp = none ∨ inp = some "") → processSize cfg supplier inp = ⟨"", "", ""⟩) ∧
    ((processSize cfg supplier inp).size_set = "" →
      (processSize cfg supplier inp).size = "") := by
  constructor
  · rintro (rfl | rfl) <;> rfl
  · intro hset
    cases inp with
    | none => rfl
    | some raw =>
      by_cases hraw : raw = ""
      · subst hraw; rfl
      · rw [processSize_some cfg supplier raw hraw] at hset
        exact absurd hset (processSizeNorm_set_ne cfg supplier _ hwf)

/-- C5, witness: the amended statement applied to `specConfig`, supplier
`guirca` and the empty input. -/
theorem C5_witness :
    ((some "" = (none : Option String) ∨ some "" = some "") →
      processSize specConfig "guirca" (some "") = ⟨"", "", ""⟩) ∧
    ((processSize specConfig "guirca" (some "")).size_set = "" →
      (processSize specConfig "guirca" (some "")).size = "") :=
  C5_empty_size_set specConfig "guirca" (some "") (by decide)

/-- C7, counterexample: the code normalizes by strip and upper-case only; it
does not strip parentheses.  On input `(M)` the returned `size` is `(M)`,
while the spec's normalization (trim, uppercase, strip parentheses) yields
`M`. -/
theorem C7_counterexample :
    (processSize specConfig "acme" (some "(M)")).size = "(M)" ∧
    specNormalizeSize "(M)" = "M" ∧ ("(M)" : String) ≠ "M" := by
  refine ⟨by decide, by decide, by decide⟩

/-- C7, amended: for every non-empty raw size input, the `size` field of the
result is the input trimmed and upper-cased (parentheses are not
stripped). -/
theorem C7_size_normalization (cfg : SizeConfig) (supplier raw : String)
    (h : raw ≠ "") :
    (processSize cfg supplier (some raw)).size = pyUpper (pyStrip raw) := by
  rw [processSize_some cfg supplier raw h]
  exact processSizeNorm_size cfg supplier _

/-- C7, witness: the amended statement at the parenthesized input ` (m) `. -/
theorem C7_witness :
    (processSize specConfig "acme" (some " (m) ")).size = pyUpper (pyStrip " (m) ") :=
  C7_size_normalization specConfig "acme" " (m) " (by decide)

/-! ## Lemmas on `extract_filename` -/

theorem pySpace_toLower_fixed {c : Char} (h : isPySpace c = true) :
    Char.toLower c = c := by
  simp only [isPySpace, Bool.or_eq_true, decide_eq_true_eq] at h
  rcases h with ((((h | h) | h) | h) | h) | h <;> subst h <;> decide

theorem not_pySpace_of_lower {c x : Char} (hx : isPySpace x = false)
    (h : Char.toLower c = x) : isPySpace c = false := by
  cases hc : isPySpace c
  · rfl
  · rw [pySpace_toLower_fixed hc] at h
    subst h
    rw [hx] at hc
    exact hc.symm

theorem dropWhile_eq_self_of_head {p : Char → Bool} {l : List Char}
    (h : ∀ c, l.head? = some c → p c = false) : l.dropWhile p = l := by
  cases l with
  | nil => rfl
  | cons c t =>
    rw [List.dropWhile_cons, h c rfl]
    simp

theorem pyStripL_eq_dropWhile {l : List Char}
    (h : ∀ c, l.getLast? = some c → isPySpace c = false) :
    pyStripL l = l.dropWhile isPySpace := by
  unfold pyStripL
  cases hm : l.dropWhile isPySpace with
  | nil => rfl
  | cons c t =>
    have hsuf := List.dropWhile_suffix (l := l) isPySpace
    rw [hm] at hsuf
    obtain ⟨w, hw⟩ := hsuf
    have hlast : l.getLast? = (c :: t).getLast? := by
      rw [← hw, List.getLast?_append]
      cases hg : (c :: t).getLast? with
      | none => simp at hg
      | some d => rfl
    have hrev : (c :: t).reverse.dropWhile isPySpace = (c :: t).reverse := by
      refine dropWhile_eq_self_of_head (fun d hd => ?_)
      rw [List.head?_reverse] at hd
      exact h d (by rw [hlast, hd])
    rw [hrev, List.reverse_reverse]

theorem endsJpg_append_four {w : List Char} {a b c d : Char}
    (ha : Char.toLower a = 'g') (hb : Char.toLower b = 'p')
    (hc : Char.toLower c = 'j') (hd : Char.toLower d = '.') :
    endsWithJpgL (w ++ (d :: c :: b :: a :: [])) = true := by
  unfold endsWithJpgL
  rw [List.reverse_append]
  show checkJpgRev (a :: b :: c :: d :: w.reverse) = true
  simp [checkJpgRev, ha, hb, hc, hd]

theorem endsJpg_append_jpg (x : List Char) :
    endsWithJpgL (x ++ ('.' :: 'j' :: 'p' :: 'g' :: [])) = true :=
  endsJpg_append_four (by decide) (by decide) (by decide) (by decide)

theorem endsJpg_shape {l : List Char} (h : endsWithJpgL l = true) :
    ∃ a b c d t, l.reverse = a :: b :: c :: d :: t ∧ Char.toLower a = 'g' ∧
      Char.toLower b = 'p' ∧ Char.toLower c = 'j' ∧ Char.toLower d = '.' := by
  unfold endsWithJpgL at h
  rcases hr : l.reverse with _ | ⟨a, _ | ⟨b, _ | ⟨c, _ | ⟨d, t⟩⟩⟩⟩ <;> rw [hr] at h
  · exact absurd h (by decide)
  · exact absurd h (by simp [checkJpgRev])
  · exact absurd h (by simp [checkJpgRev])
  · exact absurd h (by simp [checkJpgRev])
  · simp only [checkJpgRev, Bool.and_eq_true, decide_eq_true_eq] at h
    exact ⟨a, b, c, d, t, rfl, h.1.1.1, h.1.1.2, h.1.2, h.2⟩

theorem endsJpg_length {l : List Char} (h : endsWithJpgL l = true) : 4 ≤ l.length := by
  obtain ⟨a, b, c, d, t, hr, -⟩ := endsJpg_shape h
  have h4 : l.reverse.length = t.length + 4 := by
    rw [hr]
    simp only [List.length_cons]
  rw [List.length_reverse] at h4
  omega

theorem endsJpg_dropWhile {l : List Char} (h : endsWithJpgL l = true) :
    endsWithJpgL (l.dropWhile isPySpace) = true := by
  obtain ⟨a, b, c, d, t, hr, ha, hb, hc, hd⟩ := endsJpg_shape h
  have hl : l = t.reverse ++ (d :: c :: b :: a :: []) := by
    have h2 := congrArg List.reverse hr
    rw [List.reverse_reverse] at h2
    rw [h2]
    simp
  rw [hl, List.dropWhile_append]
  split_ifs with hcase
  · have hself : (d :: c :: b :: a :: []).dropWhile isPySpace =
        d :: c :: b :: a :: [] := by
      refine dropWhile_eq_self_of_head (fun e he => ?_)
      simp only [List.head?_cons, Option.some.injEq] at he
      subst he
      exact not_pySpace_of_lower (by decide) hd
    rw [hself]
    exact endsJpg_append_four (w := []) ha hb hc hd
  · exact endsJpg_append_four ha hb hc hd

theorem endsJpg_getLast_not_space {l : List Char} (h : endsWithJpgL l = true) :
    ∀ c, l.getLast? = some c → isPySpace c = false := by
  obtain ⟨a, b, c, d, t, hr, ha, -, -, -⟩ := endsJpg_shape h
  intro e he
  rw [← List.head?_reverse, hr] at he
  simp only [List.head?_cons, Option.some.injEq] at he
  subst he
  exact not_pySpace_of_lower (by decide) ha

theorem string_eq_empty_iff {u : String} : u = "" ↔ u.data = [] := by
  rw [String.ext_iff]

theorem endsJpg_ne_nan {l : List Char} (h : endsWithJpgL l = true) :
    (⟨l.map Char.toLower⟩ : String) ≠ "nan" := by
  intro hn
  have hn' : l.map Char.toLower = "nan".data := congrArg String.data hn
  have h3 : (l.map Char.toLower).length = 3 := by rw [hn']; rfl
  rw [List.length_map] at h3
  have h4 := endsJpg_length h
  omega

theorem basenameL_no_slash {l : List Char} : ∀ c ∈ basenameL l, c ≠ '/' := by
  intro c hc
  unfold basenameL at hc
  rw [List.mem_reverse] at hc
  have := List.mem_takeWhile_imp hc
  simpa using this

theorem basenameL_eq_self {l : List Char} (h : ∀ c ∈ l, c ≠ '/') :
    basenameL l = l := by
  unfold basenameL
  rw [List.takeWhile_eq_self_iff.mpr, List.reverse_reverse]
  intro x hx
  rw [List.mem_reverse] at hx
  simpa using h x hx

theorem extract_filename_shape (s : String) :
    extract_filename s = "" ∨
      (endsWithJpgL (extract_filename s).data = true ∧
        ∀ c ∈ (extract_filename s).data, c ≠ '/') := by
  unfold extract_filename
  split_ifs with h1 h2 h3
  · exact Or.inl rfl
  · exact Or.inl rfl
  · exact Or.inr ⟨h3, fun c hc => basenameL_no_slash c hc⟩
  · refine Or.inr ⟨endsJpg_append_jpg _, ?_⟩
    intro c hc
    rcases List.mem_append.mp hc with hm | hm
    · have hmb : c ∈ basenameL (pyStrip s).data :=
        List.Sublist.subset (List.takeWhile_sublist _) hm
      exact basenameL_no_slash c hmb
    · simp only [List.mem_cons, List.not_mem_nil, or_false] at hm
      rcases hm with rfl | rfl | rfl | rfl <;> decide

theorem extract_filename_of_jpg {y : String}
    (hj : endsWithJpgL y.data = true) (hs : ∀ c ∈ y.data, c ≠ '/') :
    extract_filename y = pyStrip y := by
  have hne : y ≠ "" := by
    intro h0
    rw [string_eq_empty_iff] at h0
    rw [h0] at hj
    exact absurd hj (by decide)
  have hstrip : (pyStrip y).data = y.data.dropWhile isPySpace :=
    pyStripL_eq_dropWhile (endsJpg_getLast_not_space hj)
  have hjs : endsWithJpgL (pyStrip y).data = true := by
    rw [hstrip]
    exact endsJpg_dropWhile hj
  have hss : ∀ c ∈ (pyStrip y).data, c ≠ '/' := by
    intro c hc
    rw [hstrip] at hc
    exact hs c (List.Sublist.subset (List.dropWhile_sublist _) hc)
  have hbn : basenameL (pyStrip y).data = (pyStrip y).data := basenameL_eq_self hss
  have hnan : pyLower (pyStrip y) ≠ "nan" := endsJpg_ne_nan hjs
  have hne2 : pyStrip y ≠ "" := by
    intro h0
    rw [string_eq_empty_iff] at h0
    rw [h0] at hjs
    exact absurd hjs (by decide)
  unfold extract_filename
  rw [if_neg hne, if_neg (not_or.mpr ⟨hnan, hne2⟩),
    if_pos (show endsWithJpgL (basenameL (pyStrip y).data) = true by rw [hbn]; exact hjs),
    hbn]

/-! ## Claims C3, C9, C10: image handling -/

/-- C3, evaluation of the bug: in the legacy processor, a two-row catalog
whose image column holds `a.png` in row 0 and `b.png` in row 1 gets
`a.jpg` — the reduction of row 0's value — as the single-image field of BOTH
rows, while row 1's own value reduces to `b.jpg`. -/
theorem C3_first_row_broadcast :
    rootSingleImageColumn
        [[("img", PyVal.vstr "a.png")], [("img", PyVal.vstr "b.png")]] ["img"] =
      ["a.jpg", "a.jpg"] ∧
    extract_filename "b.png" = "b.jpg" ∧ ("a.jpg" : String) ≠ "b.jpg" := by
  refine ⟨by decide, by decide, by decide⟩

/-- C9, counterexample: `extract_filename` is not idempotent.  On
`d/ a.jpg` stripping the path exposes a leading space (` a.jpg`), which a
second application removes (`a.jpg`). -/
theorem C9_counterexample :
    extract_filename (extract_filename "d/ a.jpg") ≠ extract_filename "d/ a.jpg" := by
  decide

/-- C9, amended: applying `extract_filename` to its own result strips the
result (removes the whitespace that path-stripping can expose at the front);
equivalently, the reduction is idempotent exactly on those inputs whose
reduction carries no surrounding whitespace. -/
theorem C9_idempotent_mod_strip (s : String) :
    extract_filename (extract_filename s) = pyStrip (extract_filename s) := by
  rcases extract_filename_shape s with h | ⟨hj, hs⟩
  · rw [h]
    rfl
  · exact extract_filename_of_jpg hj hs

/-- C10, counterexample: a whitespace-only input is neither missing, empty,
nor the literal `nan`, yet it yields the empty string (which does not end in
`.jpg`). -/
theorem C10_counterexample :
    extract_filename "   " = "" ∧ ("   " : String) ≠ "" ∧ ("   " : String) ≠ "nan" ∧
    endsWithJpgL ("" : String).data = false := by
  refine ⟨by decide, by decide, by decide, by decide⟩

/-- C10, amended: `extract_filename` returns the empty string exactly when
the trimmed input is empty or equals `nan` case-insensitively (so
whitespace-only and mixed-case `nan` inputs also yield the empty string);
every other input yields a non-empty filename that ends with `.jpg`
ignoring case. -/
theorem C10_jpg_extension (s : String) :
    (extract_filename s = "" ↔
      (pyLower (pyStrip s) = "nan" ∨ pyStrip s = "")) ∧
    (extract_filename s = "" ∨ endsWithJpgL (extract_filename s).data = true) := by
  constructor
  · constructor
    · intro h0
      unfold extract_filename at h0
      split_ifs at h0 with h1 h2 h3
      · right
        rw [h1]
        rfl
      · exact h2
      · rw [string_eq_empty_iff] at h0
        have := endsJpg_length (show endsWithJpgL (⟨basenameL (pyStrip s).data⟩ : String).data = true from h3)
        rw [h0] at this
        simp at this
      · rw [string_eq_empty_iff] at h0
        have hlen := congrArg List.length h0
        rw [List.length_append] at hlen
        simp at hlen
    · intro h0
      unfold extract_filename
      split_ifs with h1
      · rfl
      · rfl
  · rcases extract_filename_shape s with h | ⟨hj, -⟩
    · exact Or.inl h
    · exact Or.inr hj

/-! ## Claim C8: absent context -/

/-- C8, counterexample: in explicit-mapping mode, when no mapped field of
the row has a clean value, `get_context` returns the empty STRING (its
`return " | ".join(...) if context_pairs else ""`), not `None`; the
heuristic mode does return `None`. -/
theorem C8_counterexample :
    getContext [("DESC", "description")] [("DESC", PyVal.vnan)] = "" ∧
    createUniversalContext [("DESC", PyVal.vnan)] ["DESC"] [] = none := by
  refine ⟨by decide, by decide⟩

/-- C8, amended: when no column value qualifies, the heuristic extractor
(`create_universal_context`) returns `None` (not an empty container), but
the explicit-mapping extractor (`get_context`) returns the empty string. -/
theorem C8_no_qualifying (maps : List (String × String)) (row : List (String × PyVal))
    (cols mapped : List String)
    (h1 : ∀ m ∈ maps,
      ((dictGet (normalizeKeys row) (pyUpper m.1)).all
        fun v => (cleanValue v).isNone) = true)
    (h2 : ∀ c ∈ cols, c ∈ mapped ∨ isValuableContent (rowGet row c) = false) :
    getContext maps row = "" ∧ createUniversalContext row cols mapped = none := by
  constructor
  · simp only [getContext]
    rw [List.filterMap_eq_nil_iff.mpr]
    · rfl
    intro m hm
    have hv := h1 m hm
    cases hd : dictGet (normalizeKeys row) (pyUpper m.1) with
    | none => rfl
    | some v =>
      rw [hd] at hv
      simp only [Option.all_some, Option.isNone_iff_eq_none] at hv
      show Option.map (fun s => m.2 ++ ":" ++ s) (cleanValue v) = none
      rw [hv]
      rfl
  · simp only [createUniversalContext]
    rw [List.filterMap_eq_nil_iff.mpr]
    · rfl
    · intro c hc
      rw [if_neg]
      rintro ⟨hnm, hval⟩
      rcases h2 c hc with h | h
      · exact hnm h
      · rw [h] at hval
        exact Bool.noConfusion hval

/-- C8, witness: supplier mapping on a field holding a placeholder `nan`
string and one unmapped short numeric column; nothing qualifies in either
mode. -/
theorem C8_witness :
    getContext [("Desc", "description")]
        [("Desc", PyVal.vstr " nan "), ("Qty", PyVal.vstr "7")] = "" ∧
    createUniversalContext [("Desc", PyVal.vstr " nan "), ("Qty", PyVal.vstr "7")]
        ["Desc", "Qty"] ["Desc"] = none :=
  C8_no_qualifying [("Desc", "description")]
    [("Desc", PyVal.vstr " nan "), ("Qty", PyVal.vstr "7")] ["Desc", "Qty"] ["Desc"]
    (by decide) (by decide)

/-! ## Claim C4: missing-identity rows -/

theorem lookup_map_pair {β : Type} (g : String → β) (f : String) :
    ∀ (hs : List String),
      (hs.map (fun h => (h, g h))).lookup f = if f ∈ hs then some (g f) else none := by
  intro hs
  induction hs with
  | nil => simp [List.lookup]
  | cons h t ih =>
    simp only [List.map_cons, List.lookup]
    by_cases hf : f = h
    · subst hf
      simp
    · have hbeq : (f == h) = false := beq_false_of_ne hf
      rw [hbeq, ih]
      simp [List.mem_cons, hf]

theorem dictGet_dfRow (headers : List String) (raw : List (String × Option PyVal))
    (f : String) :
    dictGet (dfRow headers raw) f =
      if f ∈ headers then some (sheetCell raw f) else none := by
  unfold dictGet dfRow
  rw [← List.map_reverse, lookup_map_pair]
  simp [List.mem_reverse]

theorem firstPresent_blank (headers : List String)
    (raw : List (String × Option PyVal)) :
    ∀ (fields : List String),
      (∀ f ∈ fields, raw.lookup f = none ∨ raw.lookup f = some none) →
      firstPresent fields (dfRow headers raw) = none ∨
        firstPresent fields (dfRow headers raw) = some (PyVal.vstr "") := by
  intro fields h
  induction fields with
  | nil => exact Or.inl rfl
  | cons f fs ih =>
    have hf := h f (List.mem_cons_self f fs)
    unfold firstPresent
    rw [dictGet_dfRow]
    split_ifs with hmem
    · have hcell : sheetCell raw f = PyVal.vstr "" := by
        unfold sheetCell
        rcases hf with h0 | h0 <;> rw [h0]
      rw [hcell]
      exact Or.inr rfl
    · exact ih (fun g hg => h g (List.mem_cons_of_mem f hg))

/-- C4: a row none of whose mapped SKU columns holds a present non-null value
is rejected by the row transformer — it contributes nothing to the file's
output — and the output of the remaining rows is exactly the output of the
file without that row. -/
theorem C4_missing_identity (cfg : TransformCfg) (supplier : String)
    (headers : List String) (raw : List (String × Option PyVal))
    (pre post : List (List (String × Option PyVal)))
    (h : ∀ f ∈ (cfg.mapping.lookup "sku").getD [],
      raw.lookup f = none ∨ raw.lookup f = some none) :
    transformRow cfg supplier (dfRow headers raw) = none ∧
    processFileRows cfg supplier ((pre ++ raw :: post).map (dfRow headers)) =
      processFileRows cfg supplier ((pre ++ post).map (dfRow headers)) := by
  have hrow : transformRow cfg supplier (dfRow headers raw) = none := by
    simp only [transformRow]
    split_ifs with hctx
    · rfl
    · rcases firstPresent_blank headers raw _ h with h0 | h0 <;> rw [h0]
      rfl
  refine ⟨hrow, ?_⟩
  unfold processFileRows
  rw [List.map_append, List.map_cons, List.filterMap_append, List.filterMap_cons, hrow,
    List.map_append, List.filterMap_append]

/-- C4, witness: a two-row file in which the second row's only mapped SKU
cell is empty; that row is rejected and the output equals the output of the
one-good-row file. -/
theorem C4_witness :
    transformRow witnessCfg "acme" (dfRow witnessHeaders witnessBadRow) = none ∧
    processFileRows witnessCfg "acme"
        (([witnessGoodRow] ++ witnessBadRow :: []).map (dfRow witnessHeaders)) =
      processFileRows witnessCfg "acme"
        (([witnessGoodRow] ++ []).map (dfRow witnessHeaders)) :=
  C4_missing_identity witnessCfg "acme" witnessHeaders witnessBadRow
    [witnessGoodRow] [] (by decide)

/-! ## Claim C6: deduplication -/

theorem dedupKeepFirst_length {α : Type} (key : α → String) :
    ∀ (l : List α) (seen : List String),
      (dedupKeepFirst key l seen).length + dupCount key l seen = l.length := by
  intro l
  induction l with
  | nil => intro seen; rfl
  | cons x xs ih =>
    intro seen
    unfold dedupKeepFirst dupCount
    split_ifs with hx
    · have h2 := ih seen
      simp only [List.length_cons]
      omega
    · have h2 := ih (key x :: seen)
      simp only [List.length_cons]
      omega

theorem dedupKeepFirst_cons {α : Type} (key : α → String) (x : α) (xs : List α)
    (seen : List String) :
    dedupKeepFirst key (x :: xs) seen =
      if key x ∈ seen then dedupKeepFirst key xs seen
      else x :: dedupKeepFirst key xs (key x :: seen) := rfl

theorem dedupKeepFirst_filter {α : Type} (key : α → String) (k : String) :
    ∀ (l : List α) (seen : List String),
      (dedupKeepFirst key l seen).filter (fun r => key r == k) =
        if k ∈ seen then [] else (l.find? (fun r => key r == k)).toList := by
  intro l
  induction l with
  | nil =>
    intro seen
    simp [dedupKeepFirst]
  | cons x xs ih =>
    intro seen
    by_cases hx : key x ∈ seen
    · rw [dedupKeepFirst_cons, if_pos hx, ih seen]
      by_cases hk : k ∈ seen
      · rw [if_pos hk, if_pos hk]
      · have hne : (key x == k) = false :=
          beq_false_of_ne (fun he => hk (he ▸ hx))
        rw [if_neg hk, if_neg hk, List.find?_cons_of_neg _ (by rw [hne]; simp)]
    · rw [dedupKeepFirst_cons, if_neg hx, List.filter_cons]
      by_cases hkx : key x = k
      · have hks : ¬ k ∈ seen := by rw [← hkx]; exact hx
        rw [if_pos (by simp [hkx]), ih (key x :: seen),
          if_pos (by rw [hkx]; exact List.mem_cons_self k seen),
          if_neg hks, List.find?_cons_of_pos _ (by simp [hkx])]
        rfl
      · have hne : (key x == k) = false := beq_false_of_ne hkx
        rw [if_neg (by simp [hne]), ih (key x :: seen),
          List.find?_cons_of_neg _ (by rw [hne]; simp)]
        by_cases hk : k ∈ seen
        · rw [if_pos (List.mem_cons_of_mem _ hk), if_pos hk]
        · have hnm : ¬ k ∈ key x :: seen := by
            simp only [List.mem_cons]
            rintro (he | he)
            · exact hkx he.symm
            · exact hk he
          rw [if_neg hnm, if_neg hk]

/-- C6: deduplication of the concatenated row stream is keep-first by `sku`:
for a key occurring in the first file's output, the only surviving row with
that key is the first file's first occurrence (so a later row with the same
`sku` from the second file is dropped), and the surviving row count is the
total count minus the number of rows whose key duplicates an earlier one. -/
theorem C6_dedup_keep_first (out1 out2 : List (List (String × String))) (k : String)
    (h : k ∈ out1.map rowSku) :
    (dropDuplicatesSku (out1 ++ out2)).filter (fun r => rowSku r == k) =
      (out1.find? (fun r => rowSku r == k)).toList ∧
    (dropDuplicatesSku (out1 ++ out2)).length + dupCount rowSku (out1 ++ out2) [] =
      (out1 ++ out2).length := by
  constructor
  · unfold dropDuplicatesSku
    rw [dedupKeepFirst_filter rowSku k (out1 ++ out2) [],
      if_neg (List.not_mem_nil k), List.find?_append]
    have hsome : (out1.find? (fun r => rowSku r == k)).isSome := by
      rw [List.find?_isSome]
      obtain ⟨r, hr, hkr⟩ := List.mem_map.mp h
      exact ⟨r, hr, by simp [hkr]⟩
    cases ho : out1.find? (fun r => rowSku r == k) with
    | none => rw [ho] at hsome; exact absurd hsome (by simp)
    | some r => rfl
  · exact dedupKeepFirst_length rowSku (out1 ++ out2) []

/-- C6, witness: two one-row files with the same `sku` value `A`; the first
file's row is the unique survivor and one duplicate is dropped. -/
theorem C6_witness :
    (dropDuplicatesSku ([[("sku", "A"), ("x", "1")]] ++ [[("sku", "A"), ("x", "2")]])).filter
        (fun r => rowSku r == "A") =
      (([[("sku", "A"), ("x", "1")]] :
          List (List (String × String))).find? (fun r => rowSku r == "A")).toList ∧
    (dropDuplicatesSku
        ([[("sku", "A"), ("x", "1")]] ++ [[("sku", "A"), ("x", "2")]])).length +
      dupCount rowSku ([[("sku", "A"), ("x", "1")]] ++ [[("sku", "A"), ("x", "2")]]) [] =
      ([[("sku", "A"), ("x", "1")]] ++ [[("sku", "A"), ("x", "2")]]).length :=
  C6_dedup_keep_first [[("sku", "A"), ("x", "1")]] [[("sku", "A"), ("x", "2")]] "A"
    (by decide)
